import Mathlib

/-!
Verification of the flam job-queue core (src/flam/worker.py, src/flam/db.py)
against its natural-language specification.

Modelling conventions:
* SQLite TEXT timestamps (UTC ISO-8601 with trailing `Z`) are lexicographically
  comparable in canonical form; they are embedded as rationals (`Time := Rat`),
  which also absorbs the fractional seconds produced by `datetime` arithmetic.
* A table of jobs is a list of rows (`DB := List Job`); `UPDATE ... WHERE`
  becomes a `List.map` applying the row transformation to matching rows, and a
  `SELECT` becomes `List.filter`.  `ORDER BY ... LIMIT 1` becomes a fold that
  keeps the best row seen so far, with ties in both sort keys resolved by store
  order, exactly as a SQLite scan does.
* Successive `now_iso()` / `datetime.utcnow()` calls inside one operation are
  microseconds apart and no claim distinguishes them, so each operation takes a
  single `now` parameter (the recovery sweep keeps two, because its cutoff and
  its `updated_at` are computed from separate clock reads).
* Python's `s[:5000]` on a string is `List.take 5000` on the character list.
-/

namespace Flam

/-- The `state` column of the `jobs` table (db.py `init_db`). -/
inductive JState where
  | pending
  | processing
  | completed
  | dead
deriving DecidableEq

/-- UTC timestamps, embedded as rationals (see module conventions). -/
abbrev Time := Rat

/-- One row of the `jobs` table, columns as created by db.py `init_db`
(including the migration-added columns). -/
structure Job where
  id : String
  command : String
  state : JState
  attempts : Nat
  max_retries : Nat
  base_backoff : Rat
  next_run_at : Option Time
  last_error : Option String
  locked_by : Option String
  locked_at : Option Time
  created_at : Time
  updated_at : Time
  timeout_seconds : Nat
  priority : Int
  last_output : Option String
  duration_seconds : Option Rat
deriving DecidableEq

/-- The `jobs` table. -/
abbrev DB := List Job

/-- Python `output[:5000]`, the truncation applied by every outcome write
(worker.py lines 83, 111, 127). -/
def truncOut (s : String) : String := ⟨s.data.take 5000⟩

/-- The WHERE clause of the claim SELECT (worker.py lines 20-21):
`state='pending' AND (next_run_at IS NULL OR next_run_at <= now)`. -/
def isEligible (now : Time) (j : Job) : Bool :=
  j.state == .pending &&
    (match j.next_run_at with
     | none => true
     | some t => decide (t ≤ now))

/-- `ORDER BY priority DESC, created_at ASC` (worker.py line 22): `b` sorts
strictly before `a`. -/
def betterCand (a b : Job) : Bool :=
  decide (a.priority < b.priority) ||
    (a.priority == b.priority && decide (b.created_at < a.created_at))

/-- Keep the better of the best-so-far and the next row of the scan. -/
def pickBetter (acc : Option Job) (j : Job) : Option Job :=
  match acc with
  | none => some j
  | some a => if betterCand a j then some j else some a

/-- The claim SELECT (worker.py lines 16-27): the first row of the eligible
rows under `ORDER BY priority DESC, created_at ASC`, ties in both keys going
to store order. -/
def selectCandidate (db : DB) (now : Time) : Option Job :=
  (db.filter (isEligible now)).foldl pickBetter none

/-- The row transformation of the claim UPDATE (worker.py lines 33-40), whose
WHERE clause is `id=? AND state='pending'`. -/
def claimRowUpdate (rid w : String) (now : Time) (j : Job) : Job :=
  if j.id == rid && j.state == .pending then
    { j with state := .processing, locked_by := some w,
             locked_at := some now, updated_at := now }
  else j

/-- The number of rows the claim UPDATE affects (`WHERE id=? AND
state='pending'`). -/
def claimAffected (db : DB) (rid : String) : Nat :=
  (db.filter (fun j => j.id == rid && j.state == .pending)).length

/-- The body of `claim_one_job` (worker.py lines 16-43) with the table state
read by the SELECT and the table state the UPDATE applies to passed
separately, so the lost-race scenario the spec describes (the row changing
between the two statements) is expressible.  Inside the function's
`BEGIN IMMEDIATE` transaction no other writer can commit between them, so in
an actual run the two states coincide (see `claim_one_job`).  The result is
(table after the UPDATE, rows affected by the UPDATE, returned row): the code
returns `dict(row)` — the SELECT snapshot — without ever reading the affected
row count. -/
def claimOneJobBody (dbSel dbUpd : DB) (w : String) (now : Time) :
    DB × Nat × Option Job :=
  match selectCandidate dbSel now with
  | none => (dbUpd, 0, none)
  | some row =>
      (dbUpd.map (claimRowUpdate row.id w now), claimAffected dbUpd row.id, some row)

/-- `claim_one_job` (worker.py lines 12-43): under `BEGIN IMMEDIATE` the
SELECT and the UPDATE see the same table state. -/
def claim_one_job (db : DB) (w : String) (now : Time) : DB × Option Job :=
  ((claimOneJobBody db db w now).1, (claimOneJobBody db db w now).2.2)

/-- What the child process did, abstracting `subprocess.run` in
worker.py `run_command`. -/
inductive RunOutcome where
  | completed (returncode : Int) (stdout stderr : Option String)
  | timedOut
  | spawnError (msg : String)

/-- `run_command` (worker.py lines 46-68): normal completion returns
`(returncode, stdout or "", stderr or "")`; `TimeoutExpired` returns
`(124, "", f"Timeout after {timeout_seconds} seconds")`; any other exception
returns `(1, "", str(e))`. -/
def run_command (outcome : RunOutcome) (timeout_seconds : Nat) :
    Int × String × String :=
  match outcome with
  | .completed rc out err => (rc, out.getD "", err.getD "")
  | .timedOut =>
      (124, "", "Timeout after " ++ toString timeout_seconds ++ " seconds")
  | .spawnError msg => (1, "", msg)

/-- `update_job_success` (worker.py lines 72-84): the new value of the row
`WHERE id=?`.  Only `state`, `last_output`, `duration_seconds` and
`updated_at` appear in the SET list. -/
def update_job_success (j : Job) (output : String) (duration : Rat)
    (now : Time) : Job :=
  { j with state := .completed, last_output := some (truncOut output),
           duration_seconds := some duration, updated_at := now }

/-- `update_job_failure` (worker.py lines 87-128): the new value of the row
`WHERE id=?`.  `attempts = job["attempts"] + 1`; past `max_retries` the row
goes to the DLQ, otherwise it is rescheduled with exponential backoff
`base_backoff ** attempts` seconds after now.  Neither branch touches
`locked_by` or `locked_at`. -/
def update_job_failure (j : Job) (output : String) (duration : Rat)
    (now : Time) : Job :=
  let attempts := j.attempts + 1
  let next_run := now + j.base_backoff ^ attempts
  if attempts > j.max_retries then
    { j with state := .dead, attempts := attempts,
             last_error := some "Max retries exceeded",
             last_output := some (truncOut output),
             duration_seconds := some duration, updated_at := now }
  else
    { j with state := .pending, attempts := attempts,
             next_run_at := some next_run,
             last_error := some "Job failed",
             last_output := some (truncOut output),
             duration_seconds := some duration, updated_at := now }

/-- The tail of one `worker_loop` iteration that got a job (worker.py lines
145-167).  `loopStart` is the `time.time()` captured once at line 133, before
the loop; `endTime` the `time.time()` at line 153, after `run_command`
returns; so `duration = endTime - loopStart`.  `combined_output = out + err`;
on failure Python's `combined_output or "Unknown error"` replaces an empty
combined output by the literal `"Unknown error"`. -/
def worker_loop_body (loopStart endTime : Rat) (job : Job) (code : Int)
    (out err : String) (now : Time) : Job :=
  let duration := endTime - loopStart
  let combined_output := out ++ err
  if code = 0 then
    update_job_success job combined_output duration now
  else
    update_job_failure job
      (if combined_output = "" then "Unknown error" else combined_output)
      duration now

/-- The durable store: the `jobs` table plus the `config` key/value table
(db.py `init_config`). -/
structure Store where
  jobs : List Job
  config : List (String × String)

/-- The value stored in the `config` table under a key. -/
def configValue (s : Store) (k : String) : Option String :=
  (s.config.find? (fun p => p.1 == k)).map (fun p => p.2)

/-- `enqueue_job` (db.py lines 81-109): inserts a row with the generated
`job_id`, `state='pending'`, `attempts=0`, literal `max_retries = 3` and
`base_backoff = 2.0` (the code's hard-coded defaults; the `config` table is
not consulted), `created_at = updated_at = now`, and NULL
`last_error`/`locked_by`/`locked_at`/`last_output`/`duration_seconds`. -/
def enqueue_job (s : Store) (command : String) (timeout_seconds : Nat)
    (priority : Int) (next_run_at : Option Time) (job_id : String)
    (now : Time) : Store × String :=
  let row : Job :=
    { id := job_id, command := command, state := .pending, attempts := 0,
      max_retries := 3, base_backoff := 2, next_run_at := next_run_at,
      last_error := none, locked_by := none, locked_at := none,
      created_at := now, updated_at := now,
      timeout_seconds := timeout_seconds, priority := priority,
      last_output := none, duration_seconds := none }
  ({ s with jobs := s.jobs ++ [row] }, job_id)

/-- The WHERE clause of the recovery SELECT (db.py lines 204-209):
`state='processing' AND locked_at IS NOT NULL AND locked_at < cutoff`. -/
def stuckSel (cutoff : Time) (j : Job) : Bool :=
  j.state == .processing && j.locked_at.isSome &&
    (match j.locked_at with
     | none => false
     | some t => decide (t < cutoff))

/-- The WHERE clause of the recovery UPDATE (db.py lines 212-220):
`state='processing' AND locked_at < cutoff`; a SQL comparison against NULL is
not true, so a NULL `locked_at` is not matched here either. -/
def stuckUpd (cutoff : Time) (j : Job) : Bool :=
  j.state == .processing &&
    (match j.locked_at with
     | none => false
     | some t => decide (t < cutoff))

/-- `recover_stuck_jobs` (db.py lines 194-222): `cutoff = now -
timeout_seconds`; the ids of the rows matching `stuckSel` are collected, then
the UPDATE rewrites every row matching `stuckUpd` to pending with the lock
cleared and `updated_at` bumped (`nowU` is the separate `now_iso()` read at
line 220).  Returns (table after the UPDATE, collected ids). -/
def recover_stuck_jobs (db : DB) (timeout_seconds : Rat) (now nowU : Time) :
    DB × List String :=
  let cutoff := now - timeout_seconds
  let stuck := (db.filter (stuckSel cutoff)).map Job.id
  let db2 := db.map (fun j =>
    if stuckUpd cutoff j then
      { j with state := .pending, locked_by := none, locked_at := none,
               updated_at := nowU }
    else j)
  (db2, stuck)

/-- Spec invariant I2: a row that is pending, completed or dead holds no
lock. -/
def I2 (j : Job) : Prop :=
  (j.state = .pending ∨ j.state = .completed ∨ j.state = .dead) →
    (j.locked_by = none ∧ j.locked_at = none)

/-! Concrete rows used to instantiate the theorems. -/

/-- A processing row holding a lease, as a successful claim produces it. -/
def lockedJob : Job :=
  { id := "a1b2c3d4", command := "echo hello", state := .processing,
    attempts := 0, max_retries := 3, base_backoff := 2, next_run_at := none,
    last_error := none, locked_by := some "w1", locked_at := some 50,
    created_at := 10, updated_at := 50, timeout_seconds := 30, priority := 0,
    last_output := none, duration_seconds := none }

/-- A processing row on its last allowed attempt (`attempts = max_retries`). -/
def exhaustedJob : Job :=
  { lockedJob with id := "dead0001", command := "invalid_command_123",
                   attempts := 3 }

/-! Helper lemmas shared by several theorems. -/

theorem failure_last_output_eq (j : Job) (out : String) (dur : Rat)
    (now : Time) :
    (update_job_failure j out dur now).last_output = some (truncOut out) := by
  by_cases h : j.attempts + 1 > j.max_retries <;> simp [update_job_failure, h]

theorem truncOut_length_le (s : String) : (truncOut s).length ≤ 5000 := by
  show (s.data.take 5000).length ≤ 5000
  simp [List.length_take_le]

/-! ## C2 -/

/-- C2 counterexample: writing a success outcome for a processing row that
holds a lease leaves `locked_by`/`locked_at` set, so the resulting completed
row violates invariant I2 — the outcome write does not clear the lock. -/
theorem success_write_violates_I2_cex :
    (update_job_success lockedJob "hello" 1 60).state = .completed ∧
    ¬ I2 (update_job_success lockedJob "hello" 1 60) := by
  constructor
  · rfl
  · intro h
    rcases h (Or.inr (Or.inl rfl)) with ⟨hb, _⟩
    exact Option.noConfusion hb

/-- C2 (amended): `update_job_success` sets `state = completed` and
`update_job_failure` sets `state = dead` or `pending`, but neither SET list
mentions `locked_by` or `locked_at`; both columns keep the value they had, so
a row that held a lease still holds it after the outcome write and I2 fails
for it. -/
theorem outcome_writes_keep_lock (j : Job) (out : String) (dur : Rat)
    (now : Time) :
    (update_job_success j out dur now).state = .completed ∧
    (update_job_success j out dur now).locked_by = j.locked_by ∧
    (update_job_success j out dur now).locked_at = j.locked_at ∧
    (update_job_failure j out dur now).locked_by = j.locked_by ∧
    (update_job_failure j out dur now).locked_at = j.locked_at := by
  refine ⟨rfl, rfl, rfl, ?_, ?_⟩ <;>
    (by_cases h : j.attempts + 1 > j.max_retries <;>
      simp [update_job_failure, h])

/-! ## C3 -/

/-- C3: a failure write stores `attempts + 1`; if that exceeds `max_retries`
the row goes dead with `last_error = "Max retries exceeded"`, otherwise it
returns to pending with `next_run_at = now + base_backoff ^ (attempts + 1)`
and `last_error = "Job failed"`; both branches write `last_output` (truncated),
`duration_seconds` and `updated_at`. -/
theorem update_job_failure_spec (j : Job) (out : String) (dur : Rat)
    (now : Time) :
    (update_job_failure j out dur now).attempts = j.attempts + 1 ∧
    (j.attempts + 1 > j.max_retries →
      (update_job_failure j out dur now).state = .dead ∧
      (update_job_failure j out dur now).last_error =
        some "Max retries exceeded") ∧
    (¬ j.attempts + 1 > j.max_retries →
      (update_job_failure j out dur now).state = .pending ∧
      (update_job_failure j out dur now).next_run_at =
        some (now + j.base_backoff ^ (j.attempts + 1)) ∧
      (update_job_failure j out dur now).last_error = some "Job failed") ∧
    (update_job_failure j out dur now).last_output = some (truncOut out) ∧
    (update_job_failure j out dur now).duration_seconds = some dur ∧
    (update_job_failure j out dur now).updated_at = now := by
  unfold update_job_failure
  by_cases h : j.attempts + 1 > j.max_retries <;> simp [h]

/-- Witness for C3 at a concrete exhausted row: `attempts = 3 =
max_retries`, so the fourth failure lands in the DLQ branch. -/
theorem update_job_failure_spec_witness :
    (update_job_failure exhaustedJob "boom" 2 100).attempts = 4 ∧
    (update_job_failure exhaustedJob "boom" 2 100).state = .dead ∧
    (update_job_failure exhaustedJob "boom" 2 100).last_error =
      some "Max retries exceeded" := by
  have h := update_job_failure_spec exhaustedJob "boom" 2 100
  exact ⟨h.1, (h.2.1 (by decide)).1, (h.2.1 (by decide)).2⟩

/-! ## C8 -/

/-- C8: whichever outcome write runs, the stored `last_output` has length at
most 5000 — both writers store `output[:5000]`. -/
theorem last_output_le_5000 (j : Job) (out : String) (dur : Rat) (now : Time)
    (s : String) :
    ((update_job_success j out dur now).last_output = some s →
      s.length ≤ 5000) ∧
    ((update_job_failure j out dur now).last_output = some s →
      s.length ≤ 5000) := by
  constructor
  · intro h
    have h2 : some (truncOut out) = some s := h
    cases h2
    exact truncOut_length_le out
  · intro h
    rw [failure_last_output_eq] at h
    cases h
    exact truncOut_length_le out

/-- Witness for C8 on a concrete short output. -/
theorem last_output_le_5000_witness :
    (update_job_success lockedJob "abc" 1 5).last_output = some "abc" ∧
    ("abc" : String).length ≤ 5000 :=
  ⟨rfl, (last_output_le_5000 lockedJob "abc" 1 5 "abc").1 rfl⟩

/-! ## C9 -/

/-- C9: the executor returns `(124, "", "Timeout after N seconds")` on
timeout, `(1, "", message)` on a spawn error, and the child's exit code with
its captured stdout and stderr on normal completion. -/
theorem run_command_spec (n : Nat) (rc : Int) (out err msg : String) :
    run_command .timedOut n =
      (124, "", "Timeout after " ++ toString n ++ " seconds") ∧
    run_command (.spawnError msg) n = (1, "", msg) ∧
    run_command (.completed rc (some out) (some err)) n = (rc, out, err) :=
  ⟨rfl, rfl, rfl⟩

/-! ## C10 -/

/-- C10: when a claimed job fails with empty stdout and stderr, the worker
loop hands the literal `"Unknown error"` to the failure writer and that is
what lands in `last_output`; on success the same empty combined output is
stored as the empty string. -/
theorem worker_empty_output_spec (loopStart endTime : Rat) (job : Job)
    (code : Int) (now : Time) (h : code ≠ 0) :
    (worker_loop_body loopStart endTime job code "" "" now).last_output =
      some "Unknown error" ∧
    (worker_loop_body loopStart endTime job 0 "" "" now).last_output =
      some "" := by
  constructor
  · have hb : worker_loop_body loopStart endTime job code "" "" now =
        update_job_failure job "Unknown error" (endTime - loopStart) now := by
      unfold worker_loop_body
      simp [h]
    rw [hb, failure_last_output_eq]
    decide
  · have hb : worker_loop_body loopStart endTime job 0 "" "" now =
        update_job_success job "" (endTime - loopStart) now := by
      unfold worker_loop_body
      simp
    rw [hb]
    show some (truncOut "") = some ""
    decide

/-- Witness for C10 at exit code 1. -/
theorem worker_empty_output_spec_witness :
    (worker_loop_body 0 3 lockedJob 1 "" "" 60).last_output =
      some "Unknown error" :=
  (worker_empty_output_spec 0 3 lockedJob 1 60 (by decide)).1

/-! ## C6 -/

/-- C6 (code bug): the worker loop records `duration = time.time() - start`
where `start` was taken once before the loop (worker.py line 133), so the
stored `duration_seconds` is the time since the worker started, not the
wall-clock of the job's own execution.  Here the loop started at t = 0 and
the execution ran from t = 10 to t = 11: the code stores 11, while the
execution's wall-clock duration is 11 − 10 = 1. -/
theorem worker_duration_cumulative_bug :
    (worker_loop_body 0 11 lockedJob 0 "ok" "" 60).duration_seconds =
      some 11 ∧
    (11 : Rat) ≠ 11 - 10 := by
  constructor
  · simp [worker_loop_body, update_job_success]
  · norm_num

/-! ## C1 -/

/-- A pending, immediately eligible row. -/
def pendingJob : Job :=
  { lockedJob with state := .pending, locked_by := none, locked_at := none }

/-- The table state the claim SELECT reads: the row is still pending. -/
def racedSel : DB := [pendingJob]

/-- The table state the claim UPDATE applies to, in the lost-race scenario
the spec describes: another worker has already moved the row to
processing. -/
def racedUpd : DB :=
  [{ pendingJob with state := .processing, locked_by := some "w2",
                     locked_at := some 55, updated_at := 55 }]

/-- C1 counterexample: the SELECT sees the row pending but at UPDATE time the
row is no longer pending, so the conditional update affects 0 rows — yet the
claim operation still returns the selected row, not "no work": the code never
reads the affected row count. -/
theorem claim_lost_race_cex :
    (claimOneJobBody racedSel racedUpd "w1" 60).2.1 = 0 ∧
    (claimOneJobBody racedSel racedUpd "w1" 60).2.2 = some pendingJob ∧
    some pendingJob ≠ (none : Option Job) := by
  refine ⟨by decide, by decide, by decide⟩

/-- C1 (amended): whenever the SELECT produces a row, `claim_one_job` returns
that row unconditionally — it never consults the number of rows the
conditional update affected, so no poll is turned into "no work" by a lost
claim race.  (Inside `BEGIN IMMEDIATE` the SELECT and the UPDATE see the same
table state, so the race the spec's step 3 guards against cannot occur in the
SQLite implementation.) -/
theorem claim_returns_selected_row (dbSel dbUpd : DB) (w : String)
    (now : Time) (r : Job) (h : selectCandidate dbSel now = some r) :
    (claimOneJobBody dbSel dbUpd w now).2.2 = some r := by
  unfold claimOneJobBody
  rw [h]

/-- Witness for C1 (amended) on a concrete one-row table. -/
theorem claim_returns_selected_row_witness :
    (claimOneJobBody racedSel racedSel "w1" 60).2.2 = some pendingJob :=
  claim_returns_selected_row racedSel racedSel "w1" 60 pendingJob (by decide)

/-! ## C5 -/

/-- A store whose config table carries a non-default `max_retries`. -/
def cfgStore : Store :=
  { jobs := [], config := [("max_retries", "5"), ("base_backoff", "2")] }

/-- C5 counterexample: with the config table holding `max_retries = "5"`, the
enqueued row still carries `max_retries = 3`: `enqueue_job` inserts the
hard-coded defaults 3 and 2.0 and never reads the config table. -/
theorem enqueue_ignores_config_cex :
    configValue cfgStore "max_retries" = some "5" ∧
    ((enqueue_job cfgStore "echo hi" 30 0 none "job00001" 100).1.jobs.map
      Job.max_retries) = [3] ∧
    (3 : Nat) ≠ 5 := by
  refine ⟨by decide, by decide, by decide⟩

/-- C5 (amended): the enqueued row carries the generated id, `state =
pending`, `attempts = 0`, `created_at = updated_at = now`, the caller's
command/timeout/priority/`next_run_at`, NULL for the remaining columns — and
the fixed constants `max_retries = 3`, `base_backoff = 2.0`, independent of
whatever the config table holds. -/
theorem enqueue_job_spec (s : Store) (cmd : String) (ts : Nat) (pr : Int)
    (nra : Option Time) (jid : String) (now : Time) :
    ∃ row : Job,
      (enqueue_job s cmd ts pr nra jid now).1.jobs = s.jobs ++ [row] ∧
      (enqueue_job s cmd ts pr nra jid now).2 = jid ∧
      row.id = jid ∧ row.state = .pending ∧ row.attempts = 0 ∧
      row.created_at = now ∧ row.updated_at = now ∧
      row.max_retries = 3 ∧ row.base_backoff = 2 ∧
      row.command = cmd ∧ row.timeout_seconds = ts ∧ row.priority = pr ∧
      row.next_run_at = nra ∧ row.last_error = none ∧ row.locked_by = none ∧
      row.locked_at = none ∧ row.last_output = none ∧
      row.duration_seconds = none ∧
      ∀ cfg, (enqueue_job { s with config := cfg } cmd ts pr nra jid
        now).1.jobs = s.jobs ++ [row] :=
  ⟨_, rfl, rfl, rfl, rfl, rfl, rfl, rfl, rfl, rfl, rfl, rfl, rfl, rfl, rfl,
    rfl, rfl, rfl, rfl, fun _ => rfl⟩

/-! ## C7 -/

theorem stuckUpd_iff (c : Time) (j : Job) :
    stuckUpd c j = true ↔
      (j.state = .processing ∧ ∃ t, j.locked_at = some t ∧ t < c) := by
  cases hl : j.locked_at with
  | none => simp [stuckUpd, hl]
  | some t => simp [stuckUpd, hl]

theorem stuckSel_eq_stuckUpd (c : Time) (j : Job) :
    stuckSel c j = stuckUpd c j := by
  cases hl : j.locked_at with
  | none => simp [stuckSel, stuckUpd, hl]
  | some t => simp [stuckSel, stuckUpd, hl]

/-- C7: the recovery sweep rewrites exactly the rows that are processing with
a lease older than `now − stale_after`: each such row becomes pending with
`locked_by`/`locked_at` cleared and `updated_at` bumped and all other columns
untouched, and its id is in the returned list; every other row is returned
unchanged; and every returned id comes from such a stale processing row. -/
theorem recover_stuck_jobs_spec (db : DB) (ts : Rat) (now nowU : Time)
    (i : Nat) (j : Job) (hj : db[i]? = some j) :
    (∀ t, j.state = .processing → j.locked_at = some t → t < now - ts →
      ((recover_stuck_jobs db ts now nowU).1)[i]? =
        some { j with state := .pending, locked_by := none,
                      locked_at := none, updated_at := nowU } ∧
      j.id ∈ (recover_stuck_jobs db ts now nowU).2) ∧
    (¬ (j.state = .processing ∧ ∃ t, j.locked_at = some t ∧ t < now - ts) →
      ((recover_stuck_jobs db ts now nowU).1)[i]? = some j) ∧
    (∀ x ∈ (recover_stuck_jobs db ts now nowU).2, ∃ j2, j2 ∈ db ∧
      j2.state = .processing ∧ (∃ t, j2.locked_at = some t ∧ t < now - ts) ∧
      j2.id = x) := by
  refine ⟨?_, ?_, ?_⟩
  · intro t hs hl ht
    have hstuck : stuckUpd (now - ts) j = true :=
      (stuckUpd_iff (now - ts) j).mpr ⟨hs, t, hl, ht⟩
    constructor
    · simp [recover_stuck_jobs, List.getElem?_map, hj, hstuck]
    · have hmem : j ∈ db := List.mem_iff_getElem?.mpr ⟨i, hj⟩
      simp only [recover_stuck_jobs, List.mem_map, List.mem_filter]
      exact ⟨j, ⟨hmem, by rw [stuckSel_eq_stuckUpd]; exact hstuck⟩, rfl⟩
  · intro hno
    have hstuck : stuckUpd (now - ts) j = false := by
      rw [← Bool.not_eq_true]
      exact fun hc => hno ((stuckUpd_iff (now - ts) j).mp hc)
    simp [recover_stuck_jobs, List.getElem?_map, hj, hstuck]
  · intro x hx
    simp only [recover_stuck_jobs, List.mem_map, List.mem_filter] at hx
    obtain ⟨j2, ⟨hm, hsel⟩, rfl⟩ := hx
    rw [stuckSel_eq_stuckUpd] at hsel
    obtain ⟨hs, t, hl, ht⟩ := (stuckUpd_iff (now - ts) j2).mp hsel
    exact ⟨j2, hm, hs, ⟨t, hl, ht⟩, rfl⟩

/-- The recovery table of the C7 witness: one stale processing row. -/
def staleDb : DB := [lockedJob]

/-- Witness for C7: the stale leased job (locked at 50, cutoff 200 − 60) is
returned to pending with its lock cleared and its id reported. -/
theorem recover_stuck_jobs_spec_witness :
    ((recover_stuck_jobs staleDb 60 200 200).1)[0]? =
      some { lockedJob with state := .pending, locked_by := none,
                            locked_at := none, updated_at := 200 } ∧
    lockedJob.id ∈ (recover_stuck_jobs staleDb 60 200 200).2 :=
  (recover_stuck_jobs_spec staleDb 60 200 200 0 lockedJob rfl).1 50 rfl rfl
    (by norm_num)

/-! ## C4 -/

/-- `a` sorts no later than `b` under `ORDER BY priority DESC, created_at
ASC`. -/
def jobGe (a b : Job) : Prop :=
  b.priority < a.priority ∨
    (a.priority = b.priority ∧ a.created_at ≤ b.created_at)

theorem jobGe_refl (a : Job) : jobGe a a :=
  Or.inr ⟨rfl, le_refl _⟩

theorem jobGe_of_betterCand_false {a b : Job} (h : betterCand a b = false) :
    jobGe a b := by
  simp only [betterCand, Bool.or_eq_false_iff, Bool.and_eq_false_iff,
    decide_eq_false_iff_not] at h
  obtain ⟨h1, h2⟩ := h
  rcases lt_or_eq_of_le (not_lt.mp h1) with hlt | heq
  · exact Or.inl hlt
  · refine Or.inr ⟨heq.symm, ?_⟩
    rcases h2 with h2 | h2
    · exact absurd heq.symm (by simpa using h2)
    · exact not_lt.mp h2

theorem jobGe_of_betterCand_true {a b : Job} (h : betterCand a b = true) :
    jobGe b a := by
  simp only [betterCand, Bool.or_eq_true, Bool.and_eq_true,
    decide_eq_true_eq, beq_iff_eq] at h
  rcases h with h | ⟨he, hc⟩
  · exact Or.inl h
  · exact Or.inr ⟨he.symm, le_of_lt hc⟩

theorem jobGe_trans {a b c : Job} (h1 : jobGe a b) (h2 : jobGe b c) :
    jobGe a c := by
  rcases h1 with h1 | ⟨e1, c1⟩ <;> rcases h2 with h2 | ⟨e2, c2⟩
  · exact Or.inl (h2.trans h1)
  · exact Or.inl (e2 ▸ h1)
  · exact Or.inl (by rw [e1]; exact h2)
  · exact Or.inr ⟨e1.trans e2, c1.trans c2⟩

theorem foldl_pickBetter_spec (l : List Job) :
    ∀ (acc : Option Job) (r : Job), l.foldl pickBetter acc = some r →
      (r ∈ l ∨ acc = some r) ∧ (∀ x ∈ l, jobGe r x) ∧
        (∀ a, acc = some a → jobGe r a) := by
  induction l with
  | nil =>
    intro acc r h
    simp only [List.foldl_nil] at h
    refine ⟨Or.inr h, by simp, fun a ha => ?_⟩
    rw [h] at ha
    cases ha
    exact jobGe_refl r
  | cons j t ih =>
    intro acc r h
    rw [List.foldl_cons] at h
    obtain ⟨hmem, hall, hacc⟩ := ih (pickBetter acc j) r h
    cases acc with
    | none =>
      have hrj : jobGe r j := hacc j rfl
      refine ⟨?_, ?_, fun a ha => Option.noConfusion ha⟩
      · rcases hmem with hm | hm
        · exact Or.inl (List.mem_cons_of_mem j hm)
        · exact Or.inl ((Option.some.inj hm) ▸ List.mem_cons_self j t)
      · intro x hx
        rcases List.mem_cons.mp hx with hx' | hx'
        · exact hx' ▸ hrj
        · exact hall x hx'
    | some a =>
      by_cases hb : betterCand a j = true
      · have hpb : pickBetter (some a) j = some j := by simp [pickBetter, hb]
        rw [hpb] at hmem hacc
        have hrj : jobGe r j := hacc j rfl
        have hra : jobGe r a := jobGe_trans hrj (jobGe_of_betterCand_true hb)
        refine ⟨?_, ?_, fun a' ha' => (Option.some.inj ha') ▸ hra⟩
        · rcases hmem with hm | hm
          · exact Or.inl (List.mem_cons_of_mem j hm)
          · exact Or.inl ((Option.some.inj hm) ▸ List.mem_cons_self j t)
        · intro x hx
          rcases List.mem_cons.mp hx with hx' | hx'
          · exact hx' ▸ hrj
          · exact hall x hx'
      · have hb' : betterCand a j = false := by simpa using hb
        have hpb : pickBetter (some a) j = some a := by simp [pickBetter, hb']
        rw [hpb] at hmem hacc
        have hra : jobGe r a := hacc a rfl
        have hrj : jobGe r j := jobGe_trans hra (jobGe_of_betterCand_false hb')
        refine ⟨?_, ?_, fun a' ha' => (Option.some.inj ha') ▸ hra⟩
        · rcases hmem with hm | hm
          · exact Or.inl (List.mem_cons_of_mem j hm)
          · exact Or.inr hm
        · intro x hx
          rcases List.mem_cons.mp hx with hx' | hx'
          · exact hx' ▸ hrj
          · exact hall x hx'

/-- The claim SELECT returns an eligible pending row that is at least as good
as every eligible pending row of the table under
`ORDER BY priority DESC, created_at ASC`. -/
theorem selectCandidate_spec (db : DB) (now : Time) (r : Job)
    (h : selectCandidate db now = some r) :
    r ∈ db ∧ isEligible now r = true ∧
      ∀ x ∈ db, isEligible now x = true → jobGe r x := by
  unfold selectCandidate at h
  obtain ⟨hmem, hall, -⟩ := foldl_pickBetter_spec _ none r h
  have hmem' : r ∈ db.filter (isEligible now) := by
    rcases hmem with hm | hm
    · exact hm
    · exact Option.noConfusion hm
  rw [List.mem_filter] at hmem'
  exact ⟨hmem'.1, hmem'.2,
    fun x hx he => hall x (List.mem_filter.mpr ⟨hx, he⟩)⟩

theorem claimRowUpdate_id (rid w : String) (now : Time) (x : Job) :
    (claimRowUpdate rid w now x).id = x.id := by
  unfold claimRowUpdate
  split <;> rfl

/-- C4: on a table with unique ids, a claimed row is a pending, eligible row
(`next_run_at` absent or ≤ now) that every other eligible pending row ties or
loses to under `priority DESC, created_at ASC`; and a pending row whose
`next_run_at` is strictly in the future survives the claim unchanged — every
row of the resulting table carrying its id is that very pending row, so it is
not transitioned to processing. -/
theorem claim_one_job_spec (db : DB) (w : String) (now : Time)
    (hid : (db.map Job.id).Nodup) :
    (∀ r, (claim_one_job db w now).2 = some r →
      r ∈ db ∧ r.state = .pending ∧ isEligible now r = true ∧
      ∀ x ∈ db, isEligible now x = true →
        x.priority < r.priority ∨
          (r.priority = x.priority ∧ r.created_at ≤ x.created_at)) ∧
    (∀ j ∈ db, j.state = .pending →
      ∀ t, j.next_run_at = some t → now < t →
        j ∈ (claim_one_job db w now).1 ∧
        ∀ j2 ∈ (claim_one_job db w now).1, j2.id = j.id → j2 = j) := by
  have hinj : ∀ x ∈ db, ∀ y ∈ db, x.id = y.id → x = y := by
    intro x hx y hy hxy
    exact List.inj_on_of_nodup_map hid hx hy hxy
  constructor
  · intro r hr
    unfold claim_one_job claimOneJobBody at hr
    cases hsel : selectCandidate db now with
    | none =>
      rw [hsel] at hr
      exact Option.noConfusion hr
    | some r0 =>
      rw [hsel] at hr
      have hr0 : r0 = r := Option.some.inj hr
      subst hr0
      obtain ⟨hm, he, hbest⟩ := selectCandidate_spec db now r0 hsel
      have he' := he
      simp only [isEligible, Bool.and_eq_true, beq_iff_eq] at he'
      exact ⟨hm, he'.1, he, fun x hx hex => hbest x hx hex⟩
  · intro j hj hpend t hnra hfut
    unfold claim_one_job claimOneJobBody
    cases hsel : selectCandidate db now with
    | none =>
      refine ⟨hj, fun j2 hj2 hid2 => hinj j2 hj2 j hj hid2⟩
    | some r0 =>
      obtain ⟨hm0, he0, -⟩ := selectCandidate_spec db now r0 hsel
      have hfix : claimRowUpdate r0.id w now j = j := by
        unfold claimRowUpdate
        rw [if_neg]
        intro hc
        simp only [Bool.and_eq_true, beq_iff_eq] at hc
        have hjr : j = r0 := hinj j hj r0 hm0 hc.1
        subst hjr
        simp only [isEligible, Bool.and_eq_true, hnra,
          decide_eq_true_eq] at he0
        exact absurd he0.2 (not_le.mpr hfut)
      constructor
      · exact List.mem_map.mpr ⟨j, hj, hfix⟩
      · intro j2 hj2 hid2
        obtain ⟨x, hx, hxj2⟩ := List.mem_map.mp hj2
        have hxid : x.id = j.id := by
          rw [← hid2, ← hxj2, claimRowUpdate_id]
        have hxj : x = j := hinj x hx j hj hxid
        rw [← hxj2, hxj, hfix]

/-- The two-row table of the C4 witness: a high-priority eligible row and a
pending row scheduled in the future. -/
def mixedDb : DB :=
  [{ pendingJob with id := "aaaa0001", priority := 10 },
   { pendingJob with id := "bbbb0002", priority := 99,
                     next_run_at := some 500 }]

/-- Witness for C4 on `mixedDb` at now = 60: the eligible priority-10 row is
claimed (the future priority-99 row is not), and the future row survives the
claim unchanged and still pending. -/
theorem claim_one_job_spec_witness :
    ({ pendingJob with id := "aaaa0001", priority := 10 } ∈ mixedDb ∧
      ({ pendingJob with id := "aaaa0001", priority := 10 } : Job).state =
        .pending) ∧
    ({ pendingJob with id := "bbbb0002", priority := 99,
                       next_run_at := some 500 } ∈
      (claim_one_job mixedDb "w1" 60).1) := by
  have h := claim_one_job_spec mixedDb "w1" 60 (by decide)
  have h1 := h.1 { pendingJob with id := "aaaa0001", priority := 10 }
    (by decide)
  have h2 := h.2
    { pendingJob with id := "bbbb0002", priority := 99,
                      next_run_at := some 500 }
    (by decide) (by decide) 500 rfl (by norm_num)
  exact ⟨⟨h1.1, h1.2.1⟩, h2.1⟩

end Flam
